import Mathlib

/-!
Shallow embedding of the Telcoin Network consensus core, checked against
the repository's natural-language specification.

The embedding covers:
- the primary proposer's header-build step and commit-feedback handler
  (crates/consensus/primary/src/proposer.rs);
- the FetchCertificatesRequest bitmap bounds
  (crates/common/types/src/consensus/primary/communication.rs);
- votes (crates/common/types/src/consensus/primary/vote.rs);
- committed sub-dags (crates/tn-types/src/consensus/output.rs);
- worker blocks (crates/tn-types/src/primary/worker_block.rs).

Machine integers (u64 rounds, timestamps, u32 bitmap values) are modelled
as Nat with explicit bounds where overflow or try_from conversions matter.
External collaborators (the fastcrypto hash, serde/bcs serialization, the
roaring bitmap library) are modelled by their contracts: a deterministic
hash function of the input byte stream, a field-by-field byte encoding,
and the set of u32 values held by a bitmap.
-/

namespace Telx

/-- Stand-in for the external 32-byte cryptographic hash
(fastcrypto DefaultHashFunction). Only determinism - equal input bytes give
an equal digest - is relied on anywhere below. -/
def hashBytes (bytes : List ℕ) : ℕ :=
  bytes.foldl (fun acc b => acc * 31 + b) 17

/-- Byte encoding of an optional integer field, in the style of serde:
a presence tag followed by the value. -/
def encodeOptionNat : Option ℕ → List ℕ
  | none => [0]
  | some v => [1, v]

/-- Modelled from the spec: a Header is the tuple (author, round, epoch,
created_at, payload, parents, extra), where payload is an insertion-ordered
map BatchDigest to (worker_id, batch_timestamp) and parents is a set of
CertificateDigests. The Header type itself lives outside src (only its
callers are in src), so its fields follow the spec's data model. The
sealed_header field is the extra execution-layer data. -/
structure Header where
  author : ℕ
  round : ℕ
  epoch : ℕ
  created_at : ℕ
  payload : List (ℕ × ℕ × ℕ)
  parents : Finset ℕ
  sealed_header : ℕ
deriving DecidableEq

/-- Constructor mirroring Header::new(authority_id, round, epoch, created_at,
payload, parents, sealed_header) as called by the proposer. -/
def Header.new (author round epoch created_at : ℕ) (payload : List (ℕ × ℕ × ℕ))
    (parents : Finset ℕ) (sealed_header : ℕ) : Header :=
  ⟨author, round, epoch, created_at, payload, parents, sealed_header⟩

/-- Digest of a header, a wrapped 32-byte value. -/
structure HeaderDigest where
  bytes : ℕ
deriving DecidableEq

/-- Modelled from the spec: a HeaderDigest hashes author, round, epoch,
created_at, payload keys in order, and parents (Header's Hash impl is
outside src). -/
def Header.digest (h : Header) : HeaderDigest :=
  ⟨hashBytes (h.author :: h.round :: h.epoch :: h.created_at ::
    (h.payload.map (fun p => p.1) ++ h.parents.sort (· ≤ ·)))⟩

/-- Modelled from the spec: a Certificate is a header plus the signer
bitmap and aggregate signature (the Certificate type is outside src; the
proposer only reads header fields and digests of certificates). -/
structure Certificate where
  header : Header
  signers : List ℕ
deriving DecidableEq

/-- Modelled from the spec: a CertificateDigest hashes the header digest
plus the signer bitmap. -/
def Certificate.digest (c : Certificate) : ℕ :=
  hashBytes ((Header.digest c.header).bytes :: c.signers)

/-! ### CommittedSubDag (crates/tn-types/src/consensus/output.rs) -/

/-- Modelled from the spec: the per-authority reputation scores carried by
a committed sub-dag (the ReputationScores type is outside src; its contents
do not influence the commit timestamp). -/
structure ReputationScores where
  scores_per_authority : List (ℕ × ℕ)
deriving DecidableEq

/-- CommittedSubDag from output.rs. The commit_timestamp field is private
in the source; the commitTimestamp function below is the public accessor
with its fallback logic. -/
structure CommittedSubDag where
  certificates : List Certificate
  leader : Certificate
  sub_dag_index : ℕ
  reputation_score : ReputationScores
  commit_timestamp : ℕ
deriving DecidableEq

/-- CommittedSubDag::new: the commit timestamp is the max of the previous
sub-dag's commit timestamp (0 when there is none) and the leader header's
created_at. -/
def CommittedSubDag.new (certificates : List Certificate) (leader : Certificate)
    (sub_dag_index : ℕ) (reputation_score : ReputationScores)
    (previous_sub_dag : Option CommittedSubDag) : CommittedSubDag :=
  let previous_sub_dag_ts := (previous_sub_dag.map (fun s => s.commit_timestamp)).getD 0
  let commit_timestamp := max previous_sub_dag_ts leader.header.created_at
  ⟨certificates, leader, sub_dag_index, reputation_score, commit_timestamp⟩

/-- CommittedSubDag::commit_timestamp(): falls back to the leader header's
created_at when the stored field is 0 (upgraded node replaying a commit
whose field was never initialised). -/
def CommittedSubDag.commitTimestamp (s : CommittedSubDag) : ℕ :=
  if s.commit_timestamp = 0 then s.leader.header.created_at
  else s.commit_timestamp

/-- Chain of sub-dags in which each element is built by CommittedSubDag::new
from its predecessor. -/
def subDagChain (init : CommittedSubDag)
    (steps : List (List Certificate × Certificate × ℕ × ReputationScores)) :
    CommittedSubDag :=
  steps.foldl (fun acc step =>
    CommittedSubDag.new step.1 step.2.1 step.2.2.1 step.2.2.2 (some acc)) init

/-! ### WorkerBlock (crates/tn-types/src/primary/worker_block.rs) -/

/-- WorkerBlock from worker_block.rs. Opaque signed transactions, the
execution-chain parent hash, beneficiary address and hash values are
modelled as naturals. -/
structure WorkerBlock where
  transactions : List ℕ
  received_at : Option ℕ
  parent_hash : ℕ
  beneficiary : ℕ
  timestamp : ℕ
  base_fee_per_gas : Option ℕ
deriving DecidableEq

/-- Serde byte encoding of a WorkerBlock, field by field in declaration
order. The received_at field carries serde(skip), so it is not written
to the byte stream. -/
def WorkerBlock.encode (b : WorkerBlock) : List ℕ :=
  b.transactions.length :: b.transactions
    ++ [b.parent_hash, b.beneficiary, b.timestamp]
    ++ encodeOptionNat b.base_fee_per_gas

/-- WorkerBlock::digest: hash of the serde encoding of the block. -/
def WorkerBlock.digest (b : WorkerBlock) : ℕ :=
  hashBytes (WorkerBlock.encode b)

/-! ### Vote (crates/common/types/src/consensus/primary/vote.rs) -/

/-- Digest of a vote, a wrapped 32-byte value. -/
structure VoteDigest where
  bytes : ℕ
deriving DecidableEq

/-- VoteV1 from vote.rs: header digest, round, epoch and origin of the
header voted on, the voting author, and the signature. -/
structure VoteV1 where
  header_digest : HeaderDigest
  round : ℕ
  epoch : ℕ
  origin : ℕ
  author : ℕ
  signature : ℕ
deriving DecidableEq

/-- VoteV1's Hash impl: the vote digest is the header digest's bytes,
via the From conversion between the two wrapper types. -/
def VoteV1.digest (v : VoteV1) : VoteDigest :=
  ⟨v.header_digest.bytes⟩

/-- Modelled from the spec: to_intent_message prepends the intent tag to
the digest bytes (the intent module is outside src). -/
def to_intent_message (digestBytes : ℕ) : List ℕ :=
  [3, 0, 0, digestBytes]

/-- VoteV1::new_with_signer: build the vote with a default signature, then
sign the intent-tagged vote digest. The signer is modelled as a function
from message bytes to a signature value. -/
def VoteV1.new_with_signer (header : Header) (author : ℕ) (signer : List ℕ → ℕ) :
    VoteV1 :=
  let vote : VoteV1 :=
    { header_digest := header.digest, round := header.round, epoch := header.epoch,
      origin := header.author, author := author, signature := 0 }
  { vote with signature := signer (to_intent_message vote.digest.bytes) }

/-- VoteV1::new: identical field construction; the awaited signature
service is modelled as a function from message bytes to a signature. -/
def VoteV1.new (header : Header) (author : ℕ) (signature_service : List ℕ → ℕ) :
    VoteV1 :=
  let vote : VoteV1 :=
    { header_digest := header.digest, round := header.round, epoch := header.epoch,
      origin := header.author, author := author, signature := 0 }
  { vote with signature := signature_service (to_intent_message vote.digest.bytes) }

/-- Versioned vote envelope. -/
inductive Vote where
  | V1 (v : VoteV1)
deriving DecidableEq

/-- Vote's Hash impl dispatches to the inner version. -/
def Vote.digest : Vote → VoteDigest
  | Vote.V1 v => v.digest

/-- Vote::new_with_signer wraps VoteV1::new_with_signer. -/
def Vote.new_with_signer (header : Header) (author : ℕ) (signer : List ℕ → ℕ) : Vote :=
  Vote.V1 (VoteV1.new_with_signer header author signer)

/-- Vote::new wraps VoteV1::new. -/
def Vote.new (header : Header) (author : ℕ) (signature_service : List ℕ → ℕ) : Vote :=
  Vote.V1 (VoteV1.new header author signature_service)

/-! ### Proposer (crates/consensus/primary/src/proposer.rs) -/

/-- OurDigestMessage from proposer.rs: a batch digest reported by one of
our workers, with the worker id and the batch timestamp (the ack channel
is transport plumbing and carries no data). -/
structure OurDigestMessage where
  digest : ℕ
  worker_id : ℕ
  timestamp : ℕ
deriving DecidableEq

/-- The Proposer state read and written by spawn_build_header and the
commit-feedback branch of run: the authority id, the committee epoch, the
max_header_num_of_batches limit, the current round, the accumulated parent
certificates, the FIFO queue of pending batch digests, the map from round
to proposed header and its digest messages (kept in ascending round order,
as a BTreeMap iterates), and the persisted last-proposed header slot. -/
structure Proposer where
  authority_id : ℕ
  epoch : ℕ
  max_header_num_of_batches : ℕ
  round : ℕ
  last_parents : List Certificate
  digests : List OurDigestMessage
  proposed_headers : List (ℕ × Header × List OurDigestMessage)
  last_proposed : Option Header
deriving DecidableEq

/-- The max().unwrap_or(0) over the parent certificates' created_at,
computed at proposer.rs line 205. -/
def parentMaxTime (parent_certs : List Certificate) : ℕ :=
  (parent_certs.map (fun c => c.header.created_at)).foldl max 0

/-- The new-header path of Proposer::spawn_build_header (proposer.rs lines
192-270), as a pure function of the state, the captured clock reading
current_time, and the sealed header returned by the execution layer (the
success path of the network call; a network error aborts the proposal and
changes no header). Mirrors the source statement by statement:
the digest queue and last_parents are drained, the payload is built from
the drained digest messages, and the header's parents set is built from
self.last_parents as it stands after the drain (source line 234). The
clock-drift sleep guarded by current_time < parent_max_time does not
change the already-captured current_time, which the header stores as
created_at. -/
def Proposer.buildNewHeader (s : Proposer) (current_time : ℕ) (sealed_header : ℕ) :
    Proposer × Header × Option (List OurDigestMessage) :=
  let num_of_digests := min s.digests.length s.max_header_num_of_batches
  let _parent_certs := s.last_parents
  let s1 : Proposer := { s with last_parents := [] }
  let header_digests := s1.digests.take num_of_digests
  let s2 : Proposer := { s1 with digests := s1.digests.drop num_of_digests }
  let payload := header_digests.map (fun m => (m.digest, m.worker_id, m.timestamp))
  let parents : Finset ℕ := (s2.last_parents.map Certificate.digest).toFinset
  let header := Header.new s.authority_id s.round s.epoch current_time payload
    parents sealed_header
  (s2, header, some header_digests)

/-- Proposer::spawn_build_header (proposer.rs lines 166-273): when the
persisted last-proposed header matches the current round and epoch, clear
last_parents and return the stored header with no digest list (idempotent
re-send); otherwise build a new header. The store read is modelled as the
Option slot; a store error aborts without producing a header. -/
def Proposer.spawn_build_header (s : Proposer) (current_time : ℕ)
    (sealed_header : ℕ) : Proposer × Header × Option (List OurDigestMessage) :=
  match s.last_proposed with
  | some last_header =>
    if last_header.round = s.round ∧ last_header.epoch = s.epoch then
      ({ s with last_parents := [] }, last_header, none)
    else s.buildNewHeader current_time sealed_header
  | none => s.buildNewHeader current_time sealed_header

/-- The digest-collecting loop of the commit-feedback branch in
Proposer::run (proposer.rs lines 624-633): walk the proposed-headers map
in ascending round order, stop at the first round above
max_committed_round, and gather the digest messages of the visited rounds
(oldest to newest) together with the visited rounds themselves. -/
def collectResend (max_committed_round : ℕ) :
    List (ℕ × Header × List OurDigestMessage) →
    List OurDigestMessage × List ℕ
  | [] => ([], [])
  | e :: rest =>
    if max_committed_round < e.1 then ([], [])
    else
      let r := collectResend max_committed_round rest
      (e.2.2 ++ r.1, e.1 :: r.2)

/-- The commit-feedback branch of Proposer::run (proposer.rs lines
604-657), as a pure function of the proposed-headers map, the digest
queue and the received committed-own-rounds list: compute the maximum
committed round (0 when the list is empty), remove every committed round
from the map, collect the digest messages of the remaining rounds up to
the maximum committed round, and - when any such round exists - remove
those rounds too and push their digests to the front of the queue. -/
def processCommitNotification
    (proposed_headers : List (ℕ × Header × List OurDigestMessage))
    (digests : List OurDigestMessage) (commit_headers : List ℕ) :
    List (ℕ × Header × List OurDigestMessage) × List OurDigestMessage :=
  let max_committed_round := commit_headers.foldl max 0
  let ph1 := proposed_headers.filter (fun e => !(commit_headers.contains e.1))
  let res := collectResend max_committed_round ph1
  if res.2.isEmpty then (ph1, digests)
  else (ph1.filter (fun e => !(res.2.contains e.1)), res.1 ++ digests)

/-! ### FetchCertificatesRequest bounds
(crates/common/types/src/consensus/primary/communication.rs) -/

/-- Largest value a u32 can hold; u32::try_from on a u64 above this fails. -/
def u32MAX : ℕ := 4294967295

/-- FetchCertificatesRequest from communication.rs. A serialized
RoaringBitmap is modelled by its contract as the set of u32 values it
holds (the roaring crate is an external dependency whose serialization
round-trips bit-exact); the per-authority map is carried as a list of
(authority, bitmap) entries in key order, as produced by iterating the
BTreeMap. -/
structure FetchCertificatesRequest where
  exclusive_lower_bound : ℕ
  skip_rounds : List (ℕ × Finset ℕ)
  max_items : ℕ
deriving DecidableEq

/-- Serialization of one authority's skip-round set in set_bounds: each
round v is encoded as the bitmap value u32::try_from(v - gc_round).unwrap().
The u64 subtraction underflows when v < gc_round and try_from fails when
the difference exceeds u32::MAX; both panics are modelled as none. -/
def trySerialize (gc_round : ℕ) (rounds : Finset ℕ) : Option (Finset ℕ) :=
  if ∀ v ∈ rounds, gc_round ≤ v ∧ v - gc_round ≤ u32MAX then
    some (rounds.image (fun v => v - gc_round))
  else none

/-- Entry-wise serialization of the whole skip map, stopping at the first
panic. -/
def serializeAll (gc_round : ℕ) : List (ℕ × Finset ℕ) → Option (List (ℕ × Finset ℕ))
  | [] => some []
  | p :: rest =>
    match trySerialize gc_round p.2, serializeAll gc_round rest with
    | some s, some r => some ((p.1, s) :: r)
    | _, _ => none

/-- FetchCertificatesRequest::set_bounds: store gc_round as the exclusive
lower bound and serialize each authority's round set as a bitmap of
differences from gc_round. -/
def FetchCertificatesRequest.set_bounds (req : FetchCertificatesRequest)
    (gc_round : ℕ) (skip_rounds : List (ℕ × Finset ℕ)) :
    Option FetchCertificatesRequest :=
  (serializeAll gc_round skip_rounds).map
    (fun sr => ⟨gc_round, sr, req.max_items⟩)

/-- FetchCertificatesRequest::get_bounds: decode each authority's bitmap
by mapping each bitmap value r to round exclusive_lower_bound + r. -/
def FetchCertificatesRequest.get_bounds (req : FetchCertificatesRequest) :
    ℕ × List (ℕ × Finset ℕ) :=
  (req.exclusive_lower_bound,
   req.skip_rounds.map
     (fun p => (p.1, p.2.image (fun r => req.exclusive_lower_bound + r))))

/-! ### Theorems for claims C7, C8, C9, C10 -/

/-- C7: every CommittedSubDag built by CommittedSubDag::new has
commit_timestamp equal to max(previous commit_timestamp, leader
created_at), with 0 when there is no previous sub-dag; hence each sub-dag
built from a predecessor has a commit_timestamp at least its
predecessor's, and along any chain of sub-dags each built from its
predecessor the commit timestamp is non-decreasing. -/
theorem c7_commit_timestamp_max_monotone :
    (∀ (certs : List Certificate) (leader : Certificate) (idx : ℕ)
      (score : ReputationScores) (prev : Option CommittedSubDag),
      (CommittedSubDag.new certs leader idx score prev).commit_timestamp =
        max ((prev.map (fun s => s.commit_timestamp)).getD 0) leader.header.created_at)
    ∧ (∀ (certs : List Certificate) (leader : Certificate) (idx : ℕ)
      (score : ReputationScores) (p : CommittedSubDag),
      p.commit_timestamp ≤
        (CommittedSubDag.new certs leader idx score (some p)).commit_timestamp)
    ∧ (∀ (init : CommittedSubDag)
      (steps : List (List Certificate × Certificate × ℕ × ReputationScores)),
      init.commit_timestamp ≤ (subDagChain init steps).commit_timestamp) := by
  refine ⟨fun _ _ _ _ _ => rfl, fun _ _ _ _ _ => le_max_left _ _, ?_⟩
  intro init steps
  induction steps generalizing init with
  | nil => exact le_refl _
  | cons step rest ih =>
    exact le_trans (le_max_left _ _)
      (ih (CommittedSubDag.new step.1 step.2.1 step.2.2.1 step.2.2.2 (some init)))

/-- C10: the commit_timestamp() accessor returns the leader header's
created_at when the stored field is 0, and the stored field unchanged
otherwise. -/
theorem c10_commit_timestamp_accessor (s : CommittedSubDag) :
    (s.commit_timestamp = 0 → s.commitTimestamp = s.leader.header.created_at)
    ∧ (s.commit_timestamp ≠ 0 → s.commitTimestamp = s.commit_timestamp) := by
  constructor
  · intro h
    simp [CommittedSubDag.commitTimestamp, h]
  · intro h
    simp [CommittedSubDag.commitTimestamp, h]

/-- Witness for C10 at concrete sub-dags: one with stored field 0 (the
accessor returns the leader's created_at, here 42) and one with stored
field 7 (the accessor returns 7). -/
theorem c10_commit_timestamp_accessor_witness :
    (CommittedSubDag.mk [] ⟨Header.new 1 2 0 42 [] ∅ 0, [1]⟩ 0 ⟨[]⟩ 0).commitTimestamp =
      (CommittedSubDag.mk [] ⟨Header.new 1 2 0 42 [] ∅ 0, [1]⟩ 0 ⟨[]⟩ 0).leader.header.created_at
    ∧ (CommittedSubDag.mk [] ⟨Header.new 1 2 0 42 [] ∅ 0, [1]⟩ 0 ⟨[]⟩ 7).commitTimestamp = 7 :=
  ⟨(c10_commit_timestamp_accessor _).1 rfl,
   (c10_commit_timestamp_accessor (CommittedSubDag.mk [] ⟨Header.new 1 2 0 42 [] ∅ 0, [1]⟩ 0 ⟨[]⟩ 7)).2
     (by decide)⟩

/-- C8: two worker blocks whose transactions, parent_hash, beneficiary,
timestamp and base_fee_per_gas agree have the same digest, whatever the
received_at field of either block holds - the serde(skip) on received_at
keeps receive-time out of the encoded bytes and hence out of the digest. -/
theorem c8_digest_ignores_received_at (b1 b2 : WorkerBlock)
    (htx : b1.transactions = b2.transactions)
    (hparent : b1.parent_hash = b2.parent_hash)
    (hben : b1.beneficiary = b2.beneficiary)
    (hts : b1.timestamp = b2.timestamp)
    (hfee : b1.base_fee_per_gas = b2.base_fee_per_gas) :
    b1.digest = b2.digest := by
  unfold WorkerBlock.digest WorkerBlock.encode
  rw [htx, hparent, hben, hts, hfee]

/-- Witness for C8: two concrete blocks, identical in content but with
received_at none versus some 99, share a digest. -/
theorem c8_digest_ignores_received_at_witness :
    (WorkerBlock.mk [5, 6] none 1 2 3 (some 4)).transactions =
      (WorkerBlock.mk [5, 6] (some 99) 1 2 3 (some 4)).transactions
    ∧ (WorkerBlock.mk [5, 6] none 1 2 3 (some 4)).digest =
      (WorkerBlock.mk [5, 6] (some 99) 1 2 3 (some 4)).digest :=
  ⟨rfl, c8_digest_ignores_received_at _ _ rfl rfl rfl rfl rfl⟩

/-- C9: the digest of a vote created for a header (by Vote::new or
Vote::new_with_signer) carries exactly the header digest's bytes, for
every voting author and signer - the choice of voter never changes the
vote digest. -/
theorem c9_vote_digest_eq_header_digest (h : Header) (a a' : ℕ)
    (signer svc : List ℕ → ℕ) :
    (Vote.new_with_signer h a signer).digest.bytes = (Header.digest h).bytes
    ∧ (Vote.new h a svc).digest.bytes = (Header.digest h).bytes
    ∧ (Vote.new_with_signer h a signer).digest = (Vote.new_with_signer h a' svc).digest := by
  exact ⟨rfl, rfl, rfl⟩

/-- Helper: under the in-range side conditions, serialization of the whole
skip map succeeds and encodes each set by the difference from gc_round. -/
theorem serializeAll_eq (gc : ℕ) (skip : List (ℕ × Finset ℕ))
    (h : ∀ p ∈ skip, ∀ v ∈ p.2, gc ≤ v ∧ v - gc ≤ u32MAX) :
    serializeAll gc skip =
      some (skip.map (fun p => (p.1, p.2.image (fun v => v - gc)))) := by
  induction skip with
  | nil => rfl
  | cons p rest ih =>
    have hp : ∀ v ∈ p.2, gc ≤ v ∧ v - gc ≤ u32MAX :=
      h p (List.mem_cons_self _ _)
    have hrest : ∀ q ∈ rest, ∀ v ∈ q.2, gc ≤ v ∧ v - gc ≤ u32MAX :=
      fun q hq => h q (List.mem_cons_of_mem _ hq)
    simp only [serializeAll, trySerialize, if_pos hp, ih hrest, List.map_cons]

/-- Helper: shifting the encoded differences back up by gc recovers the
original round set, provided every round is at least gc. -/
theorem image_sub_add (gc : ℕ) (s : Finset ℕ) (h : ∀ v ∈ s, gc ≤ v) :
    (s.image (fun v => v - gc)).image (fun r => gc + r) = s := by
  rw [Finset.image_image]
  have : ∀ v ∈ s, ((fun r => gc + r) ∘ fun v => v - gc) v = id v := by
    intro v hv
    simp only [Function.comp_apply, id_eq]
    exact Nat.add_sub_cancel' (h v hv)
  rw [Finset.image_congr this, Finset.image_id]

/-- C4: for every gc_round and per-authority map of round sets whose
elements r satisfy gc_round ≤ r and r - gc_round ≤ u32::MAX, set_bounds
followed by get_bounds returns exactly (gc_round, skip_rounds): the bitmap
encoding round-trips to the identical sets. -/
theorem c4_bitmap_round_trip (req : FetchCertificatesRequest) (gc : ℕ)
    (skip : List (ℕ × Finset ℕ))
    (h : ∀ p ∈ skip, ∀ v ∈ p.2, gc ≤ v ∧ v - gc ≤ u32MAX) :
    ∃ req', req.set_bounds gc skip = some req' ∧ req'.get_bounds = (gc, skip) := by
  refine ⟨⟨gc, skip.map (fun p => (p.1, p.2.image (fun v => v - gc))), req.max_items⟩,
    ?_, ?_⟩
  · unfold FetchCertificatesRequest.set_bounds
    rw [serializeAll_eq gc skip h]
    rfl
  · unfold FetchCertificatesRequest.get_bounds
    simp only [List.map_map]
    have : ∀ p ∈ skip,
        ((fun q : ℕ × Finset ℕ => (q.1, q.2.image (fun r => gc + r))) ∘
          fun q : ℕ × Finset ℕ => (q.1, q.2.image (fun v => v - gc))) p = id p := by
      intro p hp
      simp only [Function.comp_apply, id_eq]
      have := image_sub_add gc p.2 (fun v hv => (h p hp v hv).1)
      exact Prod.ext rfl this
    rw [List.map_congr_left this, List.map_id]

/-- Witness for C4 at a concrete request: gc_round 3 and the skip set
{3, 5, 10} for authority 1 round-trip through set_bounds and get_bounds. -/
theorem c4_bitmap_round_trip_witness :
    (∀ p ∈ [((1 : ℕ), ({3, 5, 10} : Finset ℕ))], ∀ v ∈ p.2, 3 ≤ v ∧ v - 3 ≤ u32MAX)
    ∧ ∃ req', FetchCertificatesRequest.set_bounds ⟨0, [], 0⟩ 3 [(1, {3, 5, 10})] = some req'
        ∧ req'.get_bounds = (3, [(1, {3, 5, 10})]) :=
  ⟨by decide, c4_bitmap_round_trip ⟨0, [], 0⟩ 3 [(1, {3, 5, 10})] (by decide)⟩

/-- Counterexample for C5 as stated: with exclusive lower bound 5, the
bitmap {2} decodes to round 7 = 5 + 2, not to round 8 = 5 + 1 + 2 as the
claim's formula predicts; and a skipped round 7 is encoded as bitmap
element 2 = 7 - 5, not 1 = 7 - 5 - 1. -/
theorem c5_bitmap_offset_counterexample :
    FetchCertificatesRequest.get_bounds ⟨5, [(0, {2})], 0⟩ = (5, [(0, ({7} : Finset ℕ))])
    ∧ FetchCertificatesRequest.get_bounds ⟨5, [(0, {2})], 0⟩ ≠ (5, [(0, ({8} : Finset ℕ))])
    ∧ FetchCertificatesRequest.set_bounds ⟨0, [], 0⟩ 5 [(0, {7})] =
        some ⟨5, [(0, ({2} : Finset ℕ))], 0⟩ := by
  refine ⟨by decide, by decide, by decide⟩

/-- C5 (amended): get_bounds maps each bitmap element i of an authority's
entry to round exclusive_lower_bound + i, and set_bounds encodes a skipped
round r as bitmap element r - exclusive_lower_bound (no further +1 or -1
offset). -/
theorem c5_bitmap_offset_amended :
    (∀ (req : FetchCertificatesRequest) (k : ℕ) (bm : Finset ℕ),
      (k, bm) ∈ req.skip_rounds →
      (k, bm.image (fun r => req.exclusive_lower_bound + r)) ∈ req.get_bounds.2
      ∧ ∀ i : ℕ, i ∈ bm ↔
          req.exclusive_lower_bound + i ∈ bm.image (fun r => req.exclusive_lower_bound + r))
    ∧ (∀ (req : FetchCertificatesRequest) (gc k r : ℕ) (rounds : Finset ℕ),
      (∀ v ∈ rounds, gc ≤ v ∧ v - gc ≤ u32MAX) → r ∈ rounds →
      ∃ req', req.set_bounds gc [(k, rounds)] = some req'
        ∧ req'.skip_rounds = [(k, rounds.image (fun v => v - gc))]
        ∧ r - gc ∈ rounds.image (fun v => v - gc)) := by
  constructor
  · intro req k bm hmem
    constructor
    · exact List.mem_map_of_mem
        (fun p : ℕ × Finset ℕ => (p.1, p.2.image (fun r => req.exclusive_lower_bound + r)))
        hmem
    · intro i
      constructor
      · exact fun hi => Finset.mem_image_of_mem _ hi
      · intro hi
        obtain ⟨j, hj, hEq⟩ := Finset.mem_image.mp hi
        exact Nat.add_left_cancel hEq ▸ hj
  · intro req gc k r rounds h hr
    refine ⟨⟨gc, [(k, rounds.image (fun v => v - gc))], req.max_items⟩, ?_, rfl,
      Finset.mem_image_of_mem _ hr⟩
    unfold FetchCertificatesRequest.set_bounds
    rw [serializeAll_eq gc [(k, rounds)] (by simpa using h)]
    rfl

/-- Witness for the amended C5 at concrete inputs: elb 5 with bitmap {2}
decodes through get_bounds to the entry for authority 0, and round 7 is
encoded at difference 2. -/
theorem c5_bitmap_offset_amended_witness :
    (((0 : ℕ), ({2} : Finset ℕ)) ∈
        (FetchCertificatesRequest.mk 5 [(0, {2})] 0).skip_rounds)
    ∧ ((0 : ℕ), ({2} : Finset ℕ).image (fun r => 5 + r)) ∈
        (FetchCertificatesRequest.get_bounds ⟨5, [(0, {2})], 0⟩).2
    ∧ ∃ req', FetchCertificatesRequest.set_bounds ⟨0, [], 0⟩ 5 [(0, {7})] = some req'
        ∧ req'.skip_rounds = [(0, ({7} : Finset ℕ).image (fun v => v - 5))]
        ∧ 7 - 5 ∈ ({7} : Finset ℕ).image (fun v => v - 5) :=
  ⟨by decide,
   ((c5_bitmap_offset_amended.1 ⟨5, [(0, {2})], 0⟩ 0 {2}) (by decide)).1,
   c5_bitmap_offset_amended.2 ⟨0, [], 0⟩ 5 0 7 {7} (by decide) (by decide)⟩

/-- C1 failing input: a proposer at round 1 holding one accumulated parent
certificate and no stored last-proposed header. The source drains
self.last_parents into parent_certs (proposer.rs line 197) and then builds
the header's parents set from self.last_parents again (line 234), which is
empty after the drain: the composed header's parents set is the empty set,
not the digests of the accumulated parents, even though the proposal gate
had a non-empty parent list. -/
theorem c1_header_parents_dropped :
    (Proposer.mk 0 0 10 1 [⟨Header.new 1 0 0 0 [] ∅ 0, [1]⟩] [] [] none).last_parents ≠ []
    ∧ ((Proposer.mk 0 0 10 1 [⟨Header.new 1 0 0 0 [] ∅ 0, [1]⟩] [] [] none).spawn_build_header
        5 0).2.1.parents = (∅ : Finset ℕ)
    ∧ ((Proposer.mk 0 0 10 1 [⟨Header.new 1 0 0 0 [] ∅ 0, [1]⟩] [] [] none).spawn_build_header
        5 0).2.1.parents
        ≠ {Certificate.digest ⟨Header.new 1 0 0 0 [] ∅ 0, [1]⟩} := by
  refine ⟨by decide, by decide, by decide⟩

/-- C2 failing input: one accumulated parent certificate whose created_at
is 10 while the captured clock reading is 5. The source captures
current_time before the clock-drift sleep (proposer.rs line 206) and the
built header stores that captured value as created_at (line 257), so the
header's created_at is 5: below the parent's created_at and not equal to
max(now, max parent created_at) = 10 as the claim requires. -/
theorem c2_created_at_below_parent :
    parentMaxTime [(⟨Header.new 1 0 0 10 [] ∅ 0, [1]⟩ : Certificate)] = 10
    ∧ ((Proposer.mk 0 0 10 1 [⟨Header.new 1 0 0 10 [] ∅ 0, [1]⟩] [] [] none).spawn_build_header
        5 0).2.1.created_at = 5
    ∧ ((Proposer.mk 0 0 10 1 [⟨Header.new 1 0 0 10 [] ∅ 0, [1]⟩] [] [] none).spawn_build_header
        5 0).2.1.created_at
        < parentMaxTime [(⟨Header.new 1 0 0 10 [] ∅ 0, [1]⟩ : Certificate)]
    ∧ ((Proposer.mk 0 0 10 1 [⟨Header.new 1 0 0 10 [] ∅ 0, [1]⟩] [] [] none).spawn_build_header
        5 0).2.1.created_at
        ≠ max 5 (parentMaxTime [(⟨Header.new 1 0 0 10 [] ∅ 0, [1]⟩ : Certificate)]) := by
  refine ⟨by decide, by decide, by decide, by decide⟩

/-- C3: when the persisted last-proposed header matches the proposer's
current round and epoch, the build step returns that stored header
unchanged - the same header value and hence the same digest - together
with none, meaning no new header is constructed or registered for that
(round, epoch); the only state change is clearing the stale parent list. -/
theorem c3_reuse_last_proposed (s : Proposer) (t sh : ℕ) (h : Header)
    (hstore : s.last_proposed = some h) (hround : h.round = s.round)
    (hepoch : h.epoch = s.epoch) :
    s.spawn_build_header t sh = ({ s with last_parents := [] }, h, none)
    ∧ Header.digest ((s.spawn_build_header t sh).2.1) = Header.digest h := by
  have hmain : s.spawn_build_header t sh = ({ s with last_parents := [] }, h, none) := by
    unfold Proposer.spawn_build_header
    rw [hstore]
    simp only [if_pos (And.intro hround hepoch)]
  exact ⟨hmain, by rw [hmain]⟩

/-- Witness for C3 at a concrete proposer whose stored header matches
round 4, epoch 0: the build step hands back that stored header with no
new-header digest list. -/
theorem c3_reuse_last_proposed_witness :
    (Proposer.mk 7 0 10 4 [] [] [] (some (Header.new 7 4 0 2 [] ∅ 9))).spawn_build_header 5 1
      = (Proposer.mk 7 0 10 4 [] [] [] (some (Header.new 7 4 0 2 [] ∅ 9)),
         Header.new 7 4 0 2 [] ∅ 9, none)
    ∧ Header.digest (((Proposer.mk 7 0 10 4 [] [] []
        (some (Header.new 7 4 0 2 [] ∅ 9))).spawn_build_header 5 1).2.1)
      = Header.digest (Header.new 7 4 0 2 [] ∅ 9) :=
  c3_reuse_last_proposed
    (Proposer.mk 7 0 10 4 [] [] [] (some (Header.new 7 4 0 2 [] ∅ 9)))
    5 1 (Header.new 7 4 0 2 [] ∅ 9) rfl rfl rfl

/-- Helper: on a list whose rounds are strictly increasing (a BTreeMap's
iteration order), the break-at-first-large-round loop visits exactly the
entries with round at most max_committed_round. -/
theorem collectResend_eq (m : ℕ) (l : List (ℕ × Header × List OurDigestMessage))
    (hs : l.Pairwise (fun a b => a.1 < b.1)) :
    collectResend m l =
      ((l.filter (fun e => decide (e.1 ≤ m))).flatMap (fun e => e.2.2),
       (l.filter (fun e => decide (e.1 ≤ m))).map (fun e => e.1)) := by
  induction l with
  | nil => rfl
  | cons e rest ih =>
    rw [List.pairwise_cons] at hs
    obtain ⟨hall, hrest⟩ := hs
    by_cases hcase : m < e.1
    · have hrestfil : rest.filter (fun x => decide (x.1 ≤ m)) = [] := by
        rw [List.filter_eq_nil_iff]
        intro x hx
        simp only [decide_eq_true_eq]
        exact Nat.not_le.mpr (lt_trans hcase (hall x hx))
      simp only [collectResend, if_pos hcase, List.filter_cons, decide_eq_true_eq,
        if_neg (Nat.not_le.mpr hcase), hrestfil, List.flatMap_nil, List.map_nil]
    · have hle : e.1 ≤ m := Nat.not_lt.mp hcase
      simp only [collectResend, if_neg hcase, ih hrest, List.filter_cons,
        decide_eq_true_eq, if_pos hle, List.flatMap_cons, List.map_cons]

/-- C6: after the proposer processes a commit notification, the
proposed-headers map retains exactly the entries whose round is neither
listed in committed_own_rounds nor at most the maximum committed round,
and the digest queue becomes the digest messages of the removed
still-pending rounds - in ascending round order - followed by all
previously queued digests, so no digest is lost; entries above the
maximum committed round keep their headers and digest lists unchanged.
The hypothesis states the BTreeMap invariant: rounds strictly increase
along the map's iteration order. -/
theorem c6_commit_feedback (ph : List (ℕ × Header × List OurDigestMessage))
    (ds : List OurDigestMessage) (cs : List ℕ)
    (hs : ph.Pairwise (fun a b => a.1 < b.1)) :
    processCommitNotification ph ds cs =
      ((ph.filter (fun e => !(cs.contains e.1))).filter
          (fun e => decide (cs.foldl max 0 < e.1)),
       ((ph.filter (fun e => !(cs.contains e.1))).filter
          (fun e => decide (e.1 ≤ cs.foldl max 0))).flatMap (fun e => e.2.2) ++ ds) := by
  unfold processCommitNotification
  dsimp only
  have hs1 : (ph.filter (fun e => !(cs.contains e.1))).Pairwise
      (fun a b => a.1 < b.1) := hs.sublist (List.filter_sublist ph)
  rw [collectResend_eq (cs.foldl max 0) _ hs1]
  set m := cs.foldl max 0 with hm
  set ph1 := ph.filter (fun e => !(cs.contains e.1)) with hph1
  by_cases hF : ph1.filter (fun e => decide (e.1 ≤ m)) = []
  · rw [hF]
    have hkeep : ph1.filter (fun e => decide (m < e.1)) = ph1 := by
      rw [List.filter_eq_self]
      intro e he
      simp only [decide_eq_true_eq]
      by_contra hnot
      have hle : e.1 ≤ m := Nat.not_lt.mp hnot
      have : e ∈ ph1.filter (fun x => decide (x.1 ≤ m)) :=
        List.mem_filter.mpr ⟨he, by simpa using hle⟩
      rw [hF] at this
      exact absurd this (List.not_mem_nil e)
    simp [hkeep]
  · have hne : (ph1.filter (fun e => decide (e.1 ≤ m))).map (fun e => e.1) ≠ [] := by
      simpa [List.map_eq_nil_iff] using hF
    rw [if_neg (by simpa [List.isEmpty_iff] using hne)]
    have hpoint : ∀ e ∈ ph1,
        (!(((ph1.filter (fun x => decide (x.1 ≤ m))).map (fun x => x.1)).contains e.1))
          = decide (m < e.1) := by
      intro e he
      by_cases hle : e.1 ≤ m
      · have hmem : e.1 ∈ (ph1.filter (fun x => decide (x.1 ≤ m))).map (fun x => x.1) :=
          List.mem_map_of_mem _ (List.mem_filter.mpr ⟨he, by simpa using hle⟩)
        have hcon : ((ph1.filter (fun x => decide (x.1 ≤ m))).map
            (fun x => x.1)).contains e.1 = true := List.elem_iff.mpr hmem
        rw [hcon]
        simp [Nat.not_lt.mpr hle]
      · have hnmem : e.1 ∉ (ph1.filter (fun x => decide (x.1 ≤ m))).map (fun x => x.1) := by
          intro hmem
          obtain ⟨x, hxmem, hxeq⟩ := List.mem_map.mp hmem
          have hx := (List.mem_filter.mp hxmem).2
          simp only [decide_eq_true_eq] at hx
          exact hle (hxeq ▸ hx)
        have hcon : ((ph1.filter (fun x => decide (x.1 ≤ m))).map
            (fun x => x.1)).contains e.1 = false := by
          by_contra hc
          rw [Bool.not_eq_false] at hc
          exact hnmem (List.elem_iff.mp hc)
        rw [hcon]
        simp [Nat.not_le.mp hle]
    rw [List.filter_congr hpoint]

/-- Witness for C6 at a concrete proposer: pending headers at rounds 1, 2
and 5, queue [msg 10], commit notification for round 2. Round 2 is
committed and dropped, round 1 (below the maximum committed round) is
removed with its digest message re-inserted ahead of the queue, and round
5 survives untouched. -/
theorem c6_commit_feedback_witness :
    ([((1 : ℕ), Header.new 0 1 0 0 [] ∅ 0, [(⟨11, 0, 0⟩ : OurDigestMessage)]),
      (2, Header.new 0 2 0 0 [] ∅ 0, [⟨12, 0, 0⟩]),
      (5, Header.new 0 5 0 0 [] ∅ 0, [⟨15, 0, 0⟩])].Pairwise (fun a b => a.1 < b.1))
    ∧ processCommitNotification
        [(1, Header.new 0 1 0 0 [] ∅ 0, [⟨11, 0, 0⟩]),
         (2, Header.new 0 2 0 0 [] ∅ 0, [⟨12, 0, 0⟩]),
         (5, Header.new 0 5 0 0 [] ∅ 0, [⟨15, 0, 0⟩])]
        [⟨10, 0, 0⟩] [2]
      = ([(5, Header.new 0 5 0 0 [] ∅ 0, [⟨15, 0, 0⟩])],
         [⟨11, 0, 0⟩, ⟨10, 0, 0⟩]) :=
  ⟨by decide,
   (c6_commit_feedback
      [(1, Header.new 0 1 0 0 [] ∅ 0, [⟨11, 0, 0⟩]),
       (2, Header.new 0 2 0 0 [] ∅ 0, [⟨12, 0, 0⟩]),
       (5, Header.new 0 5 0 0 [] ∅ 0, [⟨15, 0, 0⟩])]
      [⟨10, 0, 0⟩] [2] (by decide)).trans (by decide)⟩

end Telx
